import Mathlib

/-!
Verification of the xml-dispatcher repository (Go).

The embedding below translates, function by function:
  * `src/xmlprocessor/xmlprocessor.go` — the `Handler` interface, the
    `XMLProcessor` registry, `RegisterHandler` and `ProcessXML`;
  * `src/xmlprocessor/examples.go` — `ReportHandler` and `InvoiceHandler`.

Go's `encoding/xml` is environment-supplied (not part of the repository), so
the fragment of `xml.Unmarshal` that these handlers exercise is modelled
explicitly: a recursive-descent parser for one XML element (name, double-quoted
attributes, text and element children, matching close tags, self-closing tags),
together with the struct-decoding rules the handlers rely on:
  * a struct whose `XMLName` field carries a tag `xml:"name"` makes
    `Unmarshal` fail with an `UnmarshalError` when the root element's local
    name differs from `name`;
  * a string field tagged `xml:"child,attr"` receives the value of that
    attribute on the root start tag, or the zero value `""` when absent
    (on repetition the last occurrence wins);
  * a string field tagged `xml:"child"` receives the direct character data of
    the last child element named `child`, or `""` when no such child exists;
    nested elements inside that child are skipped;
  * `Unmarshal` decodes the first element and ignores trailing input.
Go `[]byte` payloads are modelled as `String`; Go's `error` interface values
occurring in this program are modelled by the inductive `Err` (`nil` error =
`Except.ok`).  A handler's `fmt.Println` observability output is modelled as
the `ok` value of `Handle`: the extracted field that would be printed.
-/

/-- An XML node: character data or an element with a local name, an attribute
list in document order, and a list of children. Namespaces, comments,
processing instructions and entity references are outside the fragment this
program exercises and are not modelled. -/
inductive Node where
  | text (s : String)
  | elem (name : String) (attrs : List (String × String)) (children : List Node)

/-- Local name of an element node; `""` for character data. -/
def Node.name : Node → String
  | .text _ => ""
  | .elem n _ _ => n

/-- Attribute list of an element node. -/
def Node.attrs : Node → List (String × String)
  | .text _ => []
  | .elem _ a _ => a

/-- Children of an element node. -/
def Node.children : Node → List Node
  | .text _ => []
  | .elem _ _ c => c

/-- Errors produced by the modelled `xml.Unmarshal`: syntax errors, bare EOF
on empty input, and the `UnmarshalError` "expected element type <e> but have
<f>" raised when an `XMLName` tag does not match the root element. -/
inductive XmlErr where
  | syntaxError (msg : String)
  | eof
  | wrongElement (found expected : String)
deriving DecidableEq

/-- Valid first character of an XML name, as used by this program's documents. -/
def isNameStart (c : Char) : Bool := c.isAlpha || c = '_'

/-- Valid later character of an XML name. -/
def isNameChar (c : Char) : Bool :=
  c.isAlphanum || c = '_' || c = '-' || c = '.' || c = ':'

/-- XML whitespace. -/
def isXmlSpace (c : Char) : Bool := c = ' ' || c = '\t' || c = '\n' || c = '\r'

/-- Reads an XML name from the front of the input; `none` if the input does
not start with a name character. -/
def takeName : List Char → Option (String × List Char)
  | [] => none
  | c :: rest =>
    if isNameStart c then
      some (String.mk (c :: rest.takeWhile isNameChar), rest.dropWhile isNameChar)
    else
      none

/-- Parses the attribute list of a start tag: zero or more
`name="value"` items separated by whitespace, stopping (with surrounding
whitespace consumed) at the first character that cannot start a name. -/
def parseAttrs : Nat → List Char → Except XmlErr (List (String × String) × List Char)
  | 0, _ => .error (.syntaxError "attribute list too long")
  | fuel + 1, cs =>
    let cs1 := cs.dropWhile isXmlSpace
    match takeName cs1 with
    | none => .ok ([], cs1)
    | some (n, r1) =>
      match r1.dropWhile isXmlSpace with
      | '=' :: r2 =>
        match r2.dropWhile isXmlSpace with
        | '"' :: r3 =>
          match r3.dropWhile (fun c => c ≠ '"') with
          | '"' :: r4 =>
            match parseAttrs fuel r4 with
            | .ok (attrs, r5) => .ok ((n, String.mk (r3.takeWhile (fun c => c ≠ '"'))) :: attrs, r5)
            | .error e => .error e
          | _ => .error (.syntaxError "unterminated attribute value")
        | _ => .error (.syntaxError "expected quoted attribute value")
      | _ => .error (.syntaxError "expected = after attribute name")

mutual

/-- Parses one element, given the input just after its opening `<`:
name, attributes, then either `/>` or `>` children `</name>`. -/
def parseElemAux : Nat → List Char → Except XmlErr (Node × List Char)
  | 0, _ => .error (.syntaxError "document too deep")
  | fuel + 1, cs =>
    match takeName cs with
    | none => .error (.syntaxError "bad element name")
    | some (n, r1) =>
      match parseAttrs (r1.length + 1) r1 with
      | .error e => .error e
      | .ok (attrs, r2) =>
        match r2 with
        | '/' :: '>' :: r3 => .ok (.elem n attrs [], r3)
        | '>' :: r3 =>
          match parseContent fuel r3 with
          | .error e => .error e
          | .ok (children, r4) =>
            match r4 with
            | '<' :: '/' :: r5 =>
              match takeName r5 with
              | none => .error (.syntaxError "bad close tag")
              | some (n2, r6) =>
                if n2 = n then
                  match r6.dropWhile isXmlSpace with
                  | '>' :: r7 => .ok (.elem n attrs children, r7)
                  | _ => .error (.syntaxError "malformed close tag")
                else
                  .error (.syntaxError "element closed by wrong name")
            | _ => .error (.syntaxError "unexpected EOF inside element")
        | _ => .error (.syntaxError "malformed start tag")

/-- Parses element content — interleaved character data and child elements —
up to (but not consuming) the closing `</`. -/
def parseContent : Nat → List Char → Except XmlErr (List Node × List Char)
  | 0, _ => .error (.syntaxError "document too deep")
  | fuel + 1, cs =>
    match cs with
    | [] => .error (.syntaxError "unexpected EOF inside element")
    | '<' :: '/' :: _ => .ok ([], cs)
    | '<' :: rest =>
      match parseElemAux fuel rest with
      | .error e => .error e
      | .ok (child, r1) =>
        match parseContent fuel r1 with
        | .error e => .error e
        | .ok (ns, r2) => .ok (.elem child.name child.attrs child.children :: ns, r2)
    | c :: rest =>
      match parseContent fuel (rest.dropWhile (fun d => d ≠ '<')) with
      | .error e => .error e
      | .ok (ns, r2) => .ok (.text (String.mk (c :: rest.takeWhile (fun d => d ≠ '<'))) :: ns, r2)

end

/-- Models `xml.Unmarshal`'s tokenizing of one document: skip leading
whitespace, parse the root element, ignore trailing input (Go's `Unmarshal`
stops reading after the first element completes).  Empty input yields the bare
EOF error, as in Go. -/
def parseXML (data : String) : Except XmlErr Node :=
  match data.toList.dropWhile isXmlSpace with
  | [] => .error .eof
  | '<' :: rest =>
    match parseElemAux (rest.length + 1) rest with
    | .ok (n, _) => .ok n
    | .error e => .error e
  | _ => .error (.syntaxError "expected element")

/-- Models `xml.Unmarshal` into a struct whose `XMLName` field carries the
tag `xml:"expected"`: decoding fails with an `UnmarshalError` when the root
element's local name is not `expected`. -/
def unmarshalNamed (expected : String) (data : String) : Except XmlErr Node :=
  match parseXML data with
  | .error e => .error e
  | .ok root =>
    if root.name = expected then .ok root else .error (.wrongElement root.name expected)

/-- Value decoded into a string field tagged `xml:",attr"`: the named
attribute's value on the start tag, the last occurrence winning, `""` when
absent — Go leaves the zero value in place. -/
def attrValue (attrs : List (String × String)) (key : String) : String :=
  attrs.foldl (fun acc a => if a.1 = key then a.2 else acc) ""

/-- Direct character data of an element's child list: Go's string decoding
collects `CharData` tokens at the top level of the element and skips nested
elements entirely. -/
def directText (children : List Node) : String :=
  children.foldl
    (fun acc n => match n with | .text s => acc ++ s | .elem _ _ _ => acc) ""

/-- Value decoded into a string field tagged `xml:"fieldName"`: the direct
character data of the last child element with that name, `""` when no such
child exists. -/
def childField (fieldName : String) (children : List Node) : String :=
  children.foldl
    (fun acc n =>
      match n with
      | .elem n' _ cs => if n' = fieldName then directText cs else acc
      | .text _ => acc) ""

/-- Go `error` interface values occurring in this program: the dispatcher's
`fmt.Errorf("no handler found for the given XML")` and decode errors returned
by `xml.Unmarshal` inside a handler.  `Err.decode` is the injection of an
`encoding/xml` error value into the `error` interface — the underlying error
is carried unchanged. -/
inductive Err where
  | noHandler
  | decode (e : XmlErr)
deriving DecidableEq

/-- Message of the modelled error values; `noHandler` carries exactly the
string built by `fmt.Errorf` in `ProcessXML`. -/
def Err.message : Err → String
  | .noHandler => "no handler found for the given XML"
  | .decode (.syntaxError msg) => "XML syntax error: " ++ msg
  | .decode .eof => "EOF"
  | .decode (.wrongElement f e) =>
      "expected element type <" ++ e ++ "> but have <" ++ f ++ ">"

/-- The `Handler` interface of `xmlprocessor.go`: `CanHandle` reports whether
the handler recognizes the payload, `Handle` processes it.  `Handle`'s Go
signature is `error` plus a `fmt.Println` side effect; the `ok` value here is
the extracted field that would be printed. -/
structure Handler where
  CanHandle : String → Bool
  Handle : String → Except Err String

/-- Body of `ReportHandler.CanHandle` (examples.go): unmarshal into a struct
with `XMLName xml.Name xml:"report"`, then `err == nil && root.XMLName.Local
== "report"`. -/
def ReportHandler.CanHandle (xmlData : String) : Bool :=
  match unmarshalNamed "report" xmlData with
  | .ok root => root.name == "report"
  | .error _ => false

/-- Body of `ReportHandler.Handle` (examples.go): unmarshal into a struct with
a single `Data string xml:"data"` field — no `XMLName`, so the root name is
not checked — returning the decode error unchanged on failure, and otherwise
printing the extracted `Data`. -/
def ReportHandler.Handle (xmlData : String) : Except Err String :=
  match parseXML xmlData with
  | .error e => .error (.decode e)
  | .ok root => .ok (childField "data" root.children)

/-- The `ReportHandler` value as seen by the dispatcher. -/
def ReportHandler.handler : Handler :=
  { CanHandle := ReportHandler.CanHandle, Handle := ReportHandler.Handle }

/-- Body of `InvoiceHandler.CanHandle` (examples.go): unmarshal into a struct
with `XMLName xml.Name xml:"invoice"` and `Type string xml:"type,attr"`, then
`err == nil && root.XMLName.Local == "invoice" && root.Type == "sales"`. -/
def InvoiceHandler.CanHandle (xmlData : String) : Bool :=
  match unmarshalNamed "invoice" xmlData with
  | .ok root => root.name == "invoice" && attrValue root.attrs "type" == "sales"
  | .error _ => false

/-- Body of `InvoiceHandler.Handle` (examples.go): unmarshal into a struct
with a single `Amount string xml:"amount"` field — no root-name check —
returning the decode error unchanged on failure. -/
def InvoiceHandler.Handle (xmlData : String) : Except Err String :=
  match parseXML xmlData with
  | .error e => .error (.decode e)
  | .ok root => .ok (childField "amount" root.children)

/-- The `InvoiceHandler` value as seen by the dispatcher. -/
def InvoiceHandler.handler : Handler :=
  { CanHandle := InvoiceHandler.CanHandle, Handle := InvoiceHandler.Handle }

/-- The `ProcessXML` loop of `xmlprocessor.go` over a registry of non-nil
handlers: scan in order, on the first `CanHandle` returning true return that
handler's `Handle` result, otherwise the fixed `noHandler` error. -/
def ProcessXML : List Handler → String → Except Err String
  | [], _ => .error .noHandler
  | h :: t, p => if h.CanHandle p then h.Handle p else ProcessXML t p

/-- Number of `Handle` invocations the `ProcessXML` loop performs, read off
the loop body: one at the first matching entry, none afterwards. -/
def handleCalls : List Handler → String → Nat
  | [], _ => 0
  | h :: t, p => if h.CanHandle p then 1 else handleCalls t p

/-- Outcome of a dispatch over a registry whose entries are Go interface
values and may be nil: a nil entry reached by the scan makes
`handler.CanHandle(xmlData)` dereference a nil interface, a runtime panic. -/
inductive DispatchOutcome where
  | panicked
  | returned (r : Except Err String)

/-- The `ProcessXML` loop with Go's nil-interface semantics made explicit:
entries are `Option Handler` (`none` = nil interface value), and invoking a
method on a nil entry panics. -/
def ProcessXMLRun : List (Option Handler) → String → DispatchOutcome
  | [], _ => .returned (.error .noHandler)
  | none :: _, _ => .panicked
  | some h :: t, p =>
    if h.CanHandle p then .returned (h.Handle p) else ProcessXMLRun t p

/-- The `XMLProcessor` struct: an ordered registry of handler interface
values (nilable, hence `Option`). -/
structure XMLProcessor where
  handlers : List (Option Handler)

/-- Go's `NewXMLProcessor`: empty registry. -/
def NewXMLProcessor : XMLProcessor := ⟨[]⟩

/-- Go's `RegisterHandler`: `p.handlers = append(p.handlers, h)` — no nil
check, no deduplication. -/
def RegisterHandler (p : XMLProcessor) (h : Option Handler) : XMLProcessor :=
  ⟨p.handlers ++ [h]⟩

/-- The `ProcessXML` method on `XMLProcessor`. -/
def XMLProcessor.ProcessXML (p : XMLProcessor) (xmlData : String) : DispatchOutcome :=
  ProcessXMLRun p.handlers xmlData

/-- Concrete payloads from the specification's scenarios. -/
def reportHello : String := "<report><data>Hello</data></report>"

/-- A well-formed report with no data child. -/
def reportNoData : String := "<report></report>"

/-- A well-formed report with an empty data child. -/
def reportEmptyData : String := "<report><data></data></report>"

/-- The invoice payload whose type attribute is not sales. -/
def invoiceOther : String := "<invoice type=\"other\"></invoice>"

/-- An invoice payload whose type attribute is sales. -/
def invoiceSales : String := "<invoice type=\"sales\"></invoice>"

/-- The unknown-root payload from the specification's scenario 2. -/
def unknownXML : String := "<unknown></unknown>"

/-- A bare invoice-root payload, recognized by neither example handler's key
check in full (ReportHandler rejects the name, InvoiceHandler wants the
attribute). -/
def invoiceBare : String := "<invoice></invoice>"

/-- A malformed payload: an unterminated start tag. -/
def malformedXML : String := "<"

/-- A fixture handler that recognizes every payload and whose `Handle` always
fails with a decode error, used to instantiate dispatcher lemmas about a
matched handler whose processing fails. -/
def probeFailingHandler : Handler :=
  { CanHandle := fun _ => true
    Handle := fun _ => .error (.decode (.syntaxError "boom")) }

/-- On a registry without nil entries the two renderings of the loop agree:
the nil-aware run returns normally with the plain loop's result. -/
theorem processXMLRun_map_some (hs : List Handler) (p : String) :
    ProcessXMLRun (hs.map some) p = .returned (ProcessXML hs p) := by
  induction hs with
  | nil => rfl
  | cons h t ih =>
    simp only [List.map_cons, ProcessXMLRun, ProcessXML]
    by_cases hc : h.CanHandle p
    · simp [hc]
    · simp [hc, ih]

/-- The dispatch loop invokes at most one `Handle` regardless of outcome:
the count read off the loop body never exceeds one. -/
theorem handleCalls_le_one (hs : List Handler) (p : String) : handleCalls hs p ≤ 1 := by
  induction hs with
  | nil => exact Nat.zero_le 1
  | cons h t ih =>
    unfold handleCalls
    by_cases hc : h.CanHandle p = true
    · simp [hc]
    · simp only [hc, if_false]
      exact ih

/-- If entry `i` is the first whose `CanHandle` accepts `p`, the loop returns
that entry's `Handle` result. -/
theorem processXML_eq_handle_of_first :
    ∀ (hs : List Handler) (p : String) (i : Nat) (hi : i < hs.length),
      (hs.get ⟨i, hi⟩).CanHandle p = true →
      (∀ j (hj : j < i), (hs.get ⟨j, Nat.lt_trans hj hi⟩).CanHandle p = false) →
      ProcessXML hs p = (hs.get ⟨i, hi⟩).Handle p
  | [], _, i, hi, _, _ => absurd hi (Nat.not_lt_zero i)
  | h :: t, p, 0, _, hmatch, _ => by
      simp only [List.get] at hmatch
      simp [ProcessXML, hmatch]
  | h :: t, p, i + 1, hi, hmatch, hbefore => by
      have h0 : h.CanHandle p = false := hbefore 0 (Nat.succ_pos i)
      simp only [ProcessXML, h0, Bool.false_eq_true, if_false]
      exact processXML_eq_handle_of_first t p i (Nat.lt_of_succ_lt_succ hi)
        hmatch (fun j hj => hbefore (j + 1) (Nat.succ_lt_succ hj))

/-- C1: `ProcessXML` examines handlers in registration order; at the first
handler whose `CanHandle` returns true it returns that handler's `Handle`
result verbatim (success or failure) without consulting later handlers, and
at most one `Handle` runs per call. -/
theorem processXML_first_match (hs : List Handler) (p : String) (i : Nat)
    (hi : i < hs.length)
    (hmatch : (hs.get ⟨i, hi⟩).CanHandle p = true)
    (hbefore : ∀ j (hj : j < i), (hs.get ⟨j, Nat.lt_trans hj hi⟩).CanHandle p = false) :
    ProcessXML hs p = (hs.get ⟨i, hi⟩).Handle p ∧ handleCalls hs p ≤ 1 :=
  ⟨processXML_eq_handle_of_first hs p i hi hmatch hbefore, handleCalls_le_one hs p⟩

/-- Witness for C1: with `ReportHandler` registered before the always-failing
probe, dispatching the report payload returns the first handler's result and
performs at most one `Handle` call. -/
theorem processXML_first_match_witness :
    ProcessXML [ReportHandler.handler, probeFailingHandler] reportHello = .ok "Hello" ∧
    handleCalls [ReportHandler.handler, probeFailingHandler] reportHello ≤ 1 := by
  have h := processXML_first_match [ReportHandler.handler, probeFailingHandler] reportHello 0
    (by decide) (by decide) (fun j hj => absurd hj (Nat.not_lt_zero j))
  exact ⟨h.1.trans rfl, h.2⟩

/-- C2: when no registered handler's `CanHandle` accepts the payload (in
particular on the empty registry), `ProcessXML` returns the fixed failure
whose message is exactly "no handler found for the given XML", an error value
distinct from every decode-originated failure. -/
theorem processXML_no_handler_found (hs : List Handler) (p : String)
    (hnone : ∀ h ∈ hs, h.CanHandle p = false) :
    ProcessXML hs p = .error .noHandler ∧
    Err.message .noHandler = "no handler found for the given XML" ∧
    ∀ e, Err.noHandler ≠ Err.decode e := by
  refine ⟨?_, rfl, fun e h => Err.noConfusion h⟩
  induction hs with
  | nil => rfl
  | cons h t ih =>
    have h0 := hnone h (List.mem_cons_self h t)
    simp only [ProcessXML, h0, Bool.false_eq_true, if_false]
    exact ih (fun x hx => hnone x (List.mem_cons_of_mem h hx))

/-- Witness for C2: dispatching the unknown payload on an empty registry
yields exactly the fixed no-handler failure. -/
theorem processXML_no_handler_found_witness :
    ProcessXML [] unknownXML = .error .noHandler ∧
    Err.message .noHandler = "no handler found for the given XML" ∧
    ∀ e, Err.noHandler ≠ Err.decode e :=
  processXML_no_handler_found [] unknownXML (fun h hmem => absurd hmem (List.not_mem_nil h))

/-- C3: the reference `CanHandle` implementations are total Boolean functions;
any decode failure during recognition yields `false` (never an escaping
error), and a successful decode with the wrong root name also yields `false`. -/
theorem canHandle_malformed_false (data : String) :
    (∀ e, parseXML data = .error e →
      ReportHandler.CanHandle data = false ∧ InvoiceHandler.CanHandle data = false) ∧
    (∀ root, parseXML data = .ok root → root.name ≠ "report" →
      ReportHandler.CanHandle data = false) ∧
    (∀ root, parseXML data = .ok root → root.name ≠ "invoice" →
      InvoiceHandler.CanHandle data = false) := by
  refine ⟨fun e he => ?_, fun root hr hn => ?_, fun root hr hn => ?_⟩
  · constructor <;>
      simp [ReportHandler.CanHandle, InvoiceHandler.CanHandle, unmarshalNamed, he]
  · simp [ReportHandler.CanHandle, unmarshalNamed, hr, hn]
  · simp [InvoiceHandler.CanHandle, unmarshalNamed, hr, hn]

/-- Witness for C3: the unterminated start tag is rejected by both reference
recognizers, with no error escaping. -/
theorem canHandle_malformed_false_witness :
    ReportHandler.CanHandle malformedXML = false ∧
    InvoiceHandler.CanHandle malformedXML = false :=
  (canHandle_malformed_false malformedXML).1 (.syntaxError "bad element name") rfl

/-- When filtering the registry by acceptance leaves exactly one entry, the
loop returns that entry's `Handle` result. -/
theorem processXML_of_filter_singleton :
    ∀ (hs : List Handler) (p : String) (h : Handler),
      hs.filter (fun x => x.CanHandle p) = [h] → ProcessXML hs p = h.Handle p
  | [], _, _, hfil => by simp at hfil
  | a :: t, p, h, hfil => by
      cases hc : a.CanHandle p with
      | true =>
        rw [@List.filter_cons_of_pos _ (fun x => x.CanHandle p) a t hc] at hfil
        injection hfil with h1 h2
        subst h1
        simp [ProcessXML, hc]
      | false =>
        rw [@List.filter_cons_of_neg _ (fun x => x.CanHandle p) a t (by simp [hc])] at hfil
        simp only [ProcessXML, hc, Bool.false_eq_true, if_false]
        exact processXML_of_filter_singleton t p h hfil

/-- C4: when exactly one registry entry accepts the payload, the dispatch
outcome is invariant under permuting the registration order. -/
theorem processXML_order_invariant_unique_match (hs hs' : List Handler) (p : String)
    (hperm : hs.Perm hs')
    (huniq : (hs.filter (fun h => h.CanHandle p)).length = 1) :
    ProcessXML hs p = ProcessXML hs' p := by
  obtain ⟨h, hh⟩ := List.length_eq_one.mp huniq
  have hps := (hperm.filter (fun x => x.CanHandle p)).symm
  rw [hh] at hps
  rw [processXML_of_filter_singleton hs p h hh,
    processXML_of_filter_singleton hs' p h (List.perm_singleton.mp hps)]

/-- Witness for C4: the report payload is accepted only by `ReportHandler`,
so swapping the two registered handlers leaves the outcome unchanged. -/
theorem processXML_order_invariant_unique_match_witness :
    ProcessXML [ReportHandler.handler, InvoiceHandler.handler] reportHello =
      ProcessXML [InvoiceHandler.handler, ReportHandler.handler] reportHello :=
  processXML_order_invariant_unique_match
    [ReportHandler.handler, InvoiceHandler.handler]
    [InvoiceHandler.handler, ReportHandler.handler] reportHello
    (List.Perm.swap InvoiceHandler.handler ReportHandler.handler [])
    (by decide)

/-- Evaluation of `InvoiceHandler.CanHandle` as a single match on the parse
result: the redundant name check collapses into the unmarshal name check. -/
theorem invoiceCanHandle_unfold (data : String) :
    InvoiceHandler.CanHandle data =
      match parseXML data with
      | .ok root => root.name == "invoice" && attrValue root.attrs "type" == "sales"
      | .error _ => false := by
  unfold InvoiceHandler.CanHandle unmarshalNamed
  cases hp : parseXML data with
  | error e => rfl
  | ok root =>
    by_cases hn : root.name = "invoice"
    · simp [hn]
    · simp [hn, beq_eq_false_iff_ne.mpr hn]

/-- C5: `InvoiceHandler.CanHandle` accepts exactly the payloads that decode
to a root element named `invoice` (case-sensitively) whose `type` attribute
equals `sales`; in particular the other-typed invoice is rejected and its
dispatch with only `InvoiceHandler` registered fails with the no-handler
error. -/
theorem invoiceHandler_canHandle_iff (data : String) :
    (InvoiceHandler.CanHandle data = true ↔
      ∃ root, parseXML data = .ok root ∧ root.name = "invoice" ∧
        attrValue root.attrs "type" = "sales") ∧
    InvoiceHandler.CanHandle invoiceOther = false ∧
    ProcessXML [InvoiceHandler.handler] invoiceOther = .error .noHandler := by
  refine ⟨⟨fun h => ?_, fun h => ?_⟩, by decide, rfl⟩
  · cases hp : parseXML data with
    | error e =>
      have heq : InvoiceHandler.CanHandle data = false := by
        rw [invoiceCanHandle_unfold data, hp]
      rw [heq] at h
      exact absurd h (by simp)
    | ok root =>
      have heq : InvoiceHandler.CanHandle data =
          (root.name == "invoice" && attrValue root.attrs "type" == "sales") := by
        rw [invoiceCanHandle_unfold data, hp]
      rw [heq] at h
      simp only [Bool.and_eq_true, beq_iff_eq] at h
      exact ⟨root, rfl, h.1, h.2⟩
  · obtain ⟨root, hp, hn, ha⟩ := h
    have heq : InvoiceHandler.CanHandle data =
        (root.name == "invoice" && attrValue root.attrs "type" == "sales") := by
      rw [invoiceCanHandle_unfold data, hp]
    rw [heq]
    simp [hn, ha]

/-- Witness for C5: the sales-typed invoice is accepted, via the
characterization applied to its concrete parse tree. -/
theorem invoiceHandler_canHandle_iff_witness :
    InvoiceHandler.CanHandle invoiceSales = true :=
  (invoiceHandler_canHandle_iff invoiceSales).1.mpr
    ⟨Node.elem "invoice" [("type", "sales")] [], rfl, rfl, rfl⟩

/-- C6: a matched handler's failing `Handle` result reaches the caller of
`ProcessXML` unchanged, and the reference handlers return the underlying
decode error itself — no wrapping or added context at either level. -/
theorem handle_failure_propagates_unwrapped (h : Handler) (t : List Handler)
    (p data : String) (e e' : XmlErr)
    (h1 : h.CanHandle p = true) (h2 : h.Handle p = .error (.decode e))
    (h3 : parseXML data = .error e') :
    ProcessXML (h :: t) p = .error (.decode e) ∧
    ReportHandler.Handle data = .error (.decode e') ∧
    InvoiceHandler.Handle data = .error (.decode e') := by
  refine ⟨?_, ?_, ?_⟩
  · simp [ProcessXML, h1, h2]
  · simp [ReportHandler.Handle, h3]
  · simp [InvoiceHandler.Handle, h3]

/-- Witness for C6: the probe's decode failure comes back verbatim from the
dispatcher, and both reference handlers surface the raw parse error of the
unterminated tag. -/
theorem handle_failure_propagates_unwrapped_witness :
    ProcessXML [probeFailingHandler] reportHello = .error (.decode (.syntaxError "boom")) ∧
    ReportHandler.Handle malformedXML = .error (.decode (.syntaxError "bad element name")) ∧
    InvoiceHandler.Handle malformedXML = .error (.decode (.syntaxError "bad element name")) :=
  handle_failure_propagates_unwrapped probeFailingHandler [] reportHello malformedXML
    (.syntaxError "boom") (.syntaxError "bad element name") rfl rfl rfl

/-- Folding the child-field accumulator over children none of which is an
element with the looked-up name leaves the accumulator unchanged. -/
theorem childField_foldl_const (fieldName : String) :
    ∀ (cs : List Node) (acc : String), (∀ n ∈ cs, Node.name n ≠ fieldName) →
      cs.foldl
        (fun acc n =>
          match n with
          | .elem n' _ c => if n' = fieldName then directText c else acc
          | .text _ => acc) acc = acc
  | [], _, _ => rfl
  | n :: cs, acc, hnone => by
      have htail := fun m hm => hnone m (List.mem_cons_of_mem n hm)
      cases n with
      | text s => exact childField_foldl_const fieldName cs acc htail
      | elem n' a c =>
        have hne : n' ≠ fieldName := hnone (.elem n' a c) (List.mem_cons_self _ _)
        simp only [List.foldl_cons, if_neg hne]
        exact childField_foldl_const fieldName cs acc htail

/-- C7: dispatching the hello report succeeds with extracted data `"Hello"`,
the reports with an empty or missing data child succeed with `""`, and in
general a well-formed payload with no `data` child makes
`ReportHandler.Handle` succeed with the empty string rather than fail. -/
theorem reportHandler_dispatch_and_empty_data :
    ProcessXML [ReportHandler.handler] reportHello = .ok "Hello" ∧
    ProcessXML [ReportHandler.handler] reportNoData = .ok "" ∧
    ProcessXML [ReportHandler.handler] reportEmptyData = .ok "" ∧
    ∀ data root, parseXML data = .ok root →
      (∀ n ∈ Node.children root, Node.name n ≠ "data") →
      ReportHandler.Handle data = .ok "" := by
  refine ⟨rfl, rfl, rfl, fun data root hp habsent => ?_⟩
  simp only [ReportHandler.Handle, hp]
  rw [show childField "data" root.children = "" from
    childField_foldl_const "data" root.children "" habsent]

/-- Witness for C7: the data-less report, whose parse tree has no children,
satisfies the general empty-field clause. -/
theorem reportHandler_dispatch_and_empty_data_witness :
    ReportHandler.Handle reportNoData = .ok "" :=
  reportHandler_dispatch_and_empty_data.2.2.2 reportNoData (Node.elem "report" [] [])
    rfl (by simp [Node.children])

/-- C8: `RegisterHandler` appends at the end of the registry — the length
grows by one, every previously registered entry keeps its position, and
registering the same handler twice yields two entries. -/
theorem registerHandler_appends (p : XMLProcessor) (h : Option Handler) :
    (RegisterHandler p h).handlers = p.handlers ++ [h] ∧
    (RegisterHandler p h).handlers.length = p.handlers.length + 1 ∧
    (∀ i, i < p.handlers.length → (RegisterHandler p h).handlers[i]? = p.handlers[i]?) ∧
    (RegisterHandler (RegisterHandler p h) h).handlers = p.handlers ++ [h, h] := by
  refine ⟨rfl, by simp [RegisterHandler], fun i hi => ?_, by simp [RegisterHandler]⟩
  simp [RegisterHandler, List.getElem?_append_left hi]

/-- Witness for C8: after registering the report handler and then the invoice
handler, position 0 still holds the report handler entry. -/
theorem registerHandler_appends_witness :
    (RegisterHandler (RegisterHandler NewXMLProcessor (some ReportHandler.handler))
        (some InvoiceHandler.handler)).handlers[0]? =
      (RegisterHandler NewXMLProcessor (some ReportHandler.handler)).handlers[0]? :=
  (registerHandler_appends (RegisterHandler NewXMLProcessor (some ReportHandler.handler))
    (some InvoiceHandler.handler)).2.2.1 0 (by decide)

/-- C9: the reference `Handle` implementations do not re-verify the
recognition key: on every payload that decodes at all, both succeed —
extracting their field, `""` when absent — whatever the root element is. -/
theorem handle_skips_recognition_check (data : String) (root : Node)
    (hp : parseXML data = .ok root) :
    ReportHandler.Handle data = .ok (childField "data" root.children) ∧
    InvoiceHandler.Handle data = .ok (childField "amount" root.children) := by
  constructor <;> simp [ReportHandler.Handle, InvoiceHandler.Handle, hp]

/-- Witness for C9: the bare invoice payload is refused by both recognizers
yet both `Handle` implementations succeed on it with the empty field. -/
theorem handle_skips_recognition_check_witness :
    ReportHandler.CanHandle invoiceBare = false ∧
    ReportHandler.Handle invoiceBare = .ok "" ∧
    InvoiceHandler.CanHandle invoiceBare = false ∧
    InvoiceHandler.Handle invoiceBare = .ok "" := by
  have h := handle_skips_recognition_check invoiceBare (Node.elem "invoice" [] []) rfl
  exact ⟨by decide, h.1, by decide, h.2⟩

/-- Reaching a nil registry entry — every earlier entry declined — makes the
dispatch loop panic at the `CanHandle` call on the nil interface. -/
theorem processXMLRun_panics_at_nil :
    ∀ (pre : List Handler) (rest : List (Option Handler)) (p : String),
      (∀ h ∈ pre, h.CanHandle p = false) →
      ProcessXMLRun (pre.map some ++ none :: rest) p = .panicked
  | [], _, _, _ => rfl
  | h :: t, rest, p, hnomatch => by
      have h0 : h.CanHandle p = false := hnomatch h (List.mem_cons_self h t)
      simp only [List.map_cons, List.cons_append, ProcessXMLRun, h0, Bool.false_eq_true,
        if_false]
      exact processXMLRun_panics_at_nil t rest p
        (fun x hx => hnomatch x (List.mem_cons_of_mem h hx))

/-- C10: `RegisterHandler` accepts a nil handler without any check, and a
dispatch whose scan reaches that nil entry (no earlier handler matched)
panics at the `CanHandle` call — the dispatcher is not total over registries
containing nil entries. -/
theorem registerHandler_nil_then_dispatch_panics (proc : XMLProcessor) (pre : List Handler)
    (rest : List (Option Handler)) (p : String)
    (hnomatch : ∀ h ∈ pre, h.CanHandle p = false) :
    (RegisterHandler proc none).handlers = proc.handlers ++ [none] ∧
    ProcessXMLRun (pre.map some ++ none :: rest) p = .panicked :=
  ⟨rfl, processXMLRun_panics_at_nil pre rest p hnomatch⟩

/-- Witness for C10: registering nil on a fresh processor stores the nil
entry, and dispatching any payload on the registry holding only that nil
entry panics. -/
theorem registerHandler_nil_then_dispatch_panics_witness :
    (RegisterHandler NewXMLProcessor none).handlers = NewXMLProcessor.handlers ++ [none] ∧
    ProcessXMLRun ((List.map some []) ++ none :: []) unknownXML = .panicked :=
  registerHandler_nil_then_dispatch_panics NewXMLProcessor [] [] unknownXML
    (fun h hmem => absurd hmem (List.not_mem_nil h))
